import Mathlib

/-!
# Verification of the visa-jobs-mcp asynchronous search subsystem

Shallow embedding of the Go search subsystem (internal/user/search_*.go,
memory.go and the background executor) together with proofs of the
spec-level claims about it.  Pure Go functions become Lean functions;
the run lifecycle (start handler, cancel handler, background executor)
becomes explicit state passing with an inductive reachability relation;
fallible handlers return Except.
-/

namespace VisaJobs

/-! ## Signal evaluation (internal/user/search_eval.go) -/

/-- Embeds shouldAcceptJob from search_eval.go.  The strictness string is
kept even though both branches of the final case return false, exactly as
in the source. -/
def shouldAcceptJob (strictness : String) (desiredCount : Int)
    (descriptionPositive descriptionNegative descriptionDesiredMention
     requireDescriptionSignal : Bool) : Bool :=
  if descriptionNegative then false
  else
    let companyEligible : Bool := decide (desiredCount > 0)
    let descriptionEligible : Bool := descriptionPositive && descriptionDesiredMention
    if requireDescriptionSignal && !descriptionEligible then false
    else if companyEligible || descriptionEligible then true
    else if strictness == "balanced" then false
    else false

/-- C1: with visa filtering on, a candidate is accepted iff the description
is not negative, and (when require_description_signal is set) positive and
desired_mention both hold, and desired_count > 0 or (positive and
desired_mention) holds; the predicate does not depend on the strictness
mode, so strict and balanced agree. -/
theorem shouldAcceptJob_characterization :
    ∀ (strictness : String) (dc : Int) (pos neg men req : Bool),
      (shouldAcceptJob strictness dc pos neg men req =
        (!neg && (!req || (pos && men)) && (decide (dc > 0) || (pos && men))))
      ∧ shouldAcceptJob "balanced" dc pos neg men req =
          shouldAcceptJob "strict" dc pos neg men req := by
  intro strictness dc pos neg men req
  unfold shouldAcceptJob
  cases hdc : decide (dc > 0) <;>
    cases pos <;> cases neg <;> cases men <;> cases req <;> simp [hdc]

/-! ## Confidence scoring (internal/user/search_eval.go) -/

/-- Rounding to two decimals as math.Round(score*100)/100 does for the
non-negative scores produced here (half away from zero coincides with
Mathlib round for non-negative arguments). -/
def round2 (q : ℚ) : ℚ := ((round (q * 100) : ℤ) : ℚ) / 100

/-- Embeds confidenceScore from search_eval.go, the Go float64 arithmetic
carried out in ℚ: every summand is a multiple of 1/100 (desired_count/50
is a multiple of 1/50 and is capped at 1/5), so the float computation and
the exact computation round to the same two-decimal value. -/
def confidenceScore (desiredCount totalCount : ℤ)
    (descriptionPositive descriptionNegative descriptionDesiredMention : Bool) : ℚ :=
  let s0 : ℚ := 0
  let s1 := if desiredCount > 0 then s0 + 65/100 + min (2/10 : ℚ) ((desiredCount : ℚ)/50) else s0
  let s2 := if descriptionPositive then s1 + 1/10 else s1
  let s3 := if descriptionDesiredMention then s2 + 2/10 else s2
  let s4 := if descriptionNegative then s3 - 6/10 else s3
  let s5 := if desiredCount = 0 ∧ totalCount > 0 then s4 + 5/100 else s4
  let s6 := if s5 < 0 then 0 else s5
  let s7 := if s6 > 1 then 1 else s6
  round2 s7

/-- The §4.4 confidence formula exactly as the spec words it: an additive
sum of the five contributions, clamped to the unit interval and rounded to
two decimal places. -/
def specConfidenceScore (desiredCount totalCount : ℤ)
    (descriptionPositive descriptionNegative descriptionDesiredMention : Bool) : ℚ :=
  let total :=
    (if desiredCount > 0 then 65/100 + min (2/10 : ℚ) ((desiredCount : ℚ)/50) else 0)
    + (if descriptionPositive then (1 : ℚ)/10 else 0)
    + (if descriptionDesiredMention then (2 : ℚ)/10 else 0)
    + (if descriptionNegative then -(6 : ℚ)/10 else 0)
    + (if desiredCount = 0 ∧ totalCount > 0 then (5 : ℚ)/100 else 0)
  round2 (min 1 (max 0 total))

theorem seq_clamp_eq_min_max (q : ℚ) :
    (if (if q < 0 then (0 : ℚ) else q) > 1 then (1 : ℚ) else if q < 0 then 0 else q)
      = min 1 (max 0 q) := by
  by_cases h : q < 0
  · simp only [if_pos h]
    rw [if_neg (by norm_num), max_eq_left h.le, min_eq_right (by norm_num : (0:ℚ) ≤ 1)]
  · simp only [if_neg h]
    push_neg at h
    rw [max_eq_right h]
    by_cases h1 : q > 1
    · rw [if_pos h1, min_eq_left h1.le]
    · rw [if_neg h1, min_eq_right (not_lt.mp h1)]

/-- C8: for all inputs the visa-mode confidence score equals the sum of
0.65 plus min(0.20, desired_count/50) when desired_count > 0, 0.10 when
positive, 0.20 when desired_mention, -0.60 when negative and 0.05 when
desired_count = 0 and total_count > 0, clamped to [0,1] and rounded to two
decimal places. -/
theorem confidenceScore_eq_spec :
    ∀ (dc tc : ℤ) (pos neg men : Bool),
      confidenceScore dc tc pos neg men = specConfidenceScore dc tc pos neg men := by
  intro dc tc pos neg men
  unfold confidenceScore specConfidenceScore
  dsimp only
  rw [seq_clamp_eq_min_max]
  congr 1
  congr 1
  congr 1
  split_ifs <;> ring

/-! ## Run event log (internal/user/memory.go appendRunEvent) -/

/-- The event-log fragment of a Run: the ordered list of (event_id, phase)
pairs plus the next_event_id counter, as held in the run map.  The other
event fields (at_utc, detail, progress, payload) do not affect numbering
and are omitted. -/
structure RunEventLog where
  events : List (Nat × String)
  nextEventID : Nat
deriving DecidableEq

/-- Embeds appendRunEvent from memory.go: the new event takes the current
next_event_id, is appended at the end, and the counter is bumped. -/
def appendRunEvent (log : RunEventLog) (phase : String) : RunEventLog :=
  { events := log.events ++ [(log.nextEventID, phase)]
    nextEventID := log.nextEventID + 1 }

/-- The log as initialised by startJobSearchWithMode (search_tools.go):
an empty events list and next_event_id = 0. -/
def initialEventLog : RunEventLog := { events := [], nextEventID := 0 }

/-- Every operation that touches events (start, cancel, executor progress)
goes through appendRunEvent, so any sequence of operations acts on the log
as a sequence of appends. -/
def appendEventSeq (phases : List String) : RunEventLog :=
  phases.foldl appendRunEvent initialEventLog

theorem appendEventSeq_invariant (phases : List String) (log : RunEventLog)
    (h₁ : log.events.map Prod.fst = List.range log.events.length)
    (h₂ : log.nextEventID = log.events.length) :
    (phases.foldl appendRunEvent log).events.map Prod.fst
        = List.range (phases.foldl appendRunEvent log).events.length
      ∧ (phases.foldl appendRunEvent log).nextEventID
        = (phases.foldl appendRunEvent log).events.length := by
  induction phases generalizing log with
  | nil => exact ⟨h₁, h₂⟩
  | cons p ps ih =>
      refine ih (appendRunEvent log p) ?_ ?_
      · simp [appendRunEvent, h₁, h₂, List.range_succ]
      · simp [appendRunEvent, h₂]

/-- C7: after any sequence of operations the events list has event_id
values dense from 0 in order, next_event_id equals the number of events,
and each further operation only appends (with the next id) at the end. -/
theorem runEvents_dense_append_only :
    ∀ (phases : List String),
      (appendEventSeq phases).events.map Prod.fst
          = List.range (appendEventSeq phases).events.length
      ∧ (appendEventSeq phases).nextEventID = (appendEventSeq phases).events.length
      ∧ ∀ p, (appendEventSeq (phases ++ [p])).events
          = (appendEventSeq phases).events
              ++ [((appendEventSeq phases).nextEventID, p)] := by
  intro phases
  obtain ⟨h₁, h₂⟩ := appendEventSeq_invariant phases initialEventLog (by rfl) (by rfl)
  refine ⟨h₁, h₂, fun p => ?_⟩
  simp [appendEventSeq, List.foldl_append, appendRunEvent]

/-! ## Description-fetch budget (internal/user/search_query.go filter loop) -/

/-- The per-candidate inputs that matter for the fetch budget: the
candidate's desired_count from the sponsor dataset and the wall clock at
the moment the budget is consulted (time.Now()). -/
structure BudgetCandidate where
  desiredCount : ℤ
  now : ℕ
deriving DecidableEq

/-- The executor's running counters for the budget: description_fetches,
description_fetch_skipped and the description_budget_hit flag. -/
structure BudgetState where
  fetches : ℕ
  skipped : ℕ
  budgetHit : Bool
deriving DecidableEq

/-- needsDescription from search_query.go line 173:
require_description_signal or (visa filtering on and desired_count == 0). -/
def needsDescription (requireSignal visaFilteringOn : Bool) (c : BudgetCandidate) : Bool :=
  requireSignal || (visaFilteringOn && decide (c.desiredCount = 0))

/-- canFetchDescription from search_query.go line 175: the per-run fetch
counter is below the limit and the wall clock is before the deadline. -/
def canFetchDescription (limit deadline : ℕ) (s : BudgetState) (c : BudgetCandidate) : Bool :=
  decide (s.fetches < limit) && decide (c.now < deadline)

/-- One candidate's effect on the budget counters (search_query.go lines
173-220): a fetch is attempted (and counted, even on fetch error) only
when needed and allowed; a needed but denied candidate records a budget
hit and bumps the skipped counter; otherwise nothing changes. -/
def budgetStep (requireSignal visaOn : Bool) (limit deadline : ℕ)
    (s : BudgetState) (c : BudgetCandidate) : BudgetState :=
  if needsDescription requireSignal visaOn c then
    if canFetchDescription limit deadline s c then
      { s with fetches := s.fetches + 1 }
    else
      { s with skipped := s.skipped + 1, budgetHit := true }
  else s

/-- The whole filter loop's effect on the budget counters over the scraped
candidates, in scrape order. -/
def budgetRun (requireSignal visaOn : Bool) (limit deadline : ℕ)
    (cands : List BudgetCandidate) : BudgetState :=
  cands.foldl (budgetStep requireSignal visaOn limit deadline) ⟨0, 0, false⟩

theorem budgetStep_fetches_le (requireSignal visaOn : Bool) (limit deadline : ℕ)
    (s : BudgetState) (c : BudgetCandidate) (h : s.fetches ≤ limit) :
    (budgetStep requireSignal visaOn limit deadline s c).fetches ≤ limit := by
  unfold budgetStep canFetchDescription
  split
  · split
    · next hcan =>
        have hlt : s.fetches < limit := by
          have := (Bool.and_eq_true _ _).mp hcan
          exact of_decide_eq_true this.1
        dsimp only
        omega
    · exact h
  · exact h

theorem budgetFold_fetches_le (requireSignal visaOn : Bool) (limit deadline : ℕ)
    (cands : List BudgetCandidate) (s : BudgetState) (h : s.fetches ≤ limit) :
    (cands.foldl (budgetStep requireSignal visaOn limit deadline) s).fetches ≤ limit := by
  induction cands generalizing s with
  | nil => exact h
  | cons c cs ih =>
      exact ih _ (budgetStep_fetches_le requireSignal visaOn limit deadline s c h)

/-- C6: over any run, a detail fetch is counted exactly for candidates
that need a description and pass the budget check, so the fetch counter
never exceeds max_description_fetches; a needed but budget-denied
candidate increments the skipped counter without a fetch; a candidate
that needs no description leaves the counters untouched. -/
theorem description_budget_respected :
    ∀ (requireSignal visaOn : Bool) (limit deadline : ℕ) (cands : List BudgetCandidate),
      (budgetRun requireSignal visaOn limit deadline cands).fetches ≤ limit
      ∧ (∀ (s : BudgetState) (c : BudgetCandidate),
          ((budgetStep requireSignal visaOn limit deadline s c).fetches = s.fetches + 1
              ↔ needsDescription requireSignal visaOn c = true
                  ∧ canFetchDescription limit deadline s c = true)
          ∧ (needsDescription requireSignal visaOn c = true →
              canFetchDescription limit deadline s c = false →
                (budgetStep requireSignal visaOn limit deadline s c).skipped = s.skipped + 1
                ∧ (budgetStep requireSignal visaOn limit deadline s c).fetches = s.fetches)
          ∧ (needsDescription requireSignal visaOn c = false →
              budgetStep requireSignal visaOn limit deadline s c = s)) := by
  intro requireSignal visaOn limit deadline cands
  refine ⟨budgetFold_fetches_le requireSignal visaOn limit deadline cands _ (Nat.zero_le _), ?_⟩
  intro s c
  refine ⟨?_, ?_, ?_⟩
  · unfold budgetStep
    by_cases hneed : needsDescription requireSignal visaOn c = true
    · by_cases hcan : canFetchDescription limit deadline s c = true
      · simp [hneed, hcan]
      · simp [hneed, hcan]
    · simp [hneed]
  · intro hneed hcan
    unfold budgetStep
    simp [hneed, hcan]
  · intro hneed
    unfold budgetStep
    simp [hneed]

/-! ## Run lifecycle (search_tools.go start/cancel, unnamed/part_008 executor)

The run fields that the status operations touch, with the three kinds of
status writes the code performs: the cancel handler (cancelJobSearch), the
executor's unconditional initial write of "running", and the executor's
terminal write after executeSearchQuery returns.  The executor runs exactly
once per run (spawned only by the start handler), so reachable histories
interleave any number of cancel calls with the executor's start write
followed by its finish write. -/

inductive RunStatus
  | pending | running | cancelling | cancelled | completed | failed
deriving DecidableEq

/-- searchRunIsTerminal from search_tools.go. -/
def isTerminalStatus : RunStatus → Bool
  | .completed | .failed | .cancelled => true
  | _ => false

structure RunMachineState where
  status : RunStatus
  cancelRequested : Bool
  error : String
  completedAtSet : Bool
  sessionWritten : Bool
  events : List String
deriving DecidableEq

/-- The run as written by startJobSearchWithMode: pending, no cancel
requested, empty error, no completion timestamp, a single started event. -/
def initialRunState : RunMachineState :=
  { status := .pending, cancelRequested := false, error := ""
    completedAtSet := false, sessionWritten := false, events := ["started"] }

/-- Embeds cancelJobSearch (search_tools.go lines 396-427): a no-op on a
terminal run; otherwise sets cancel_requested, moves the status to
cancelling and appends a cancelling event. -/
def cancelStep (s : RunMachineState) : RunMachineState :=
  if isTerminalStatus s.status then s
  else { s with cancelRequested := true, status := .cancelling,
                events := s.events ++ ["cancelling"] }

/-- Embeds the executor's first update (unnamed/part_008 lines 21-25): an
unconditional write of status running plus a running event. -/
def execStartStep (s : RunMachineState) : RunMachineState :=
  { s with status := .running, events := s.events ++ ["running"] }

/-- How executeSearchQuery came back: success, the distinguished
cancelled error, or any other error. -/
inductive ExecOutcome
  | success
  | cancelledError
  | otherError (msg : String)
deriving DecidableEq

/-- Embeds the executor's terminal update (unnamed/part_008 lines
92-117).  executeSearchQuery returns the cancelled error only from a
checkpoint reached before saveSearchSessionRecord, so the cancelled and
error branches leave sessionWritten unchanged, while the success branch
records that the Session was persisted. -/
def execFinishStep : ExecOutcome → RunMachineState → RunMachineState
  | .success, s =>
      { s with status := .completed, sessionWritten := true, error := "",
               completedAtSet := true }
  | .cancelledError, s =>
      { s with status := .cancelled, error := "", completedAtSet := true,
               events := s.events ++ ["cancelled"] }
  | .otherError msg, s =>
      if s.cancelRequested then
        { s with status := .cancelled, error := "", completedAtSet := true,
                 events := s.events ++ ["cancelled"] }
      else
        { s with status := .failed, error := msg, completedAtSet := true,
                 events := s.events ++ ["failed"] }

/-- Where the (unique) executor task for the run stands. -/
inductive ExecPhase
  | beforeStart | started | finished
deriving DecidableEq

/-- States a run can reach: created pending by start, with cancel calls
interleaving arbitrarily with the executor's start write and finish
write. -/
inductive RunReach : ExecPhase → RunMachineState → Prop
  | init : RunReach .beforeStart initialRunState
  | cancel {p s} : RunReach p s → RunReach p (cancelStep s)
  | start {s} : RunReach .beforeStart s → RunReach .started (execStartStep s)
  | finish {s} (o : ExecOutcome) : RunReach .started s → RunReach .finished (execFinishStep o s)

/-- The edge list of the §4.1 state machine exactly as the claim lists it. -/
def isSpecEdge : RunStatus → RunStatus → Bool
  | .pending, .running => true
  | .pending, .cancelling => true
  | .running, .cancelling => true
  | .running, .completed => true
  | .running, .failed => true
  | .cancelling, .cancelled => true
  | _, _ => false

theorem runReach_invariant :
    ∀ (p : ExecPhase) (s : RunMachineState), RunReach p s →
      (p = ExecPhase.beforeStart →
        ((s.status = RunStatus.pending ∧ s.cancelRequested = false)
          ∨ (s.status = RunStatus.cancelling ∧ s.cancelRequested = true)))
      ∧ (p = ExecPhase.started →
        (s.status = RunStatus.running
          ∨ (s.status = RunStatus.cancelling ∧ s.cancelRequested = true)))
      ∧ (p ≠ ExecPhase.finished → s.sessionWritten = false) := by
  intro p s h
  induction h with
  | init =>
      refine ⟨fun _ => Or.inl ⟨rfl, rfl⟩, fun hp => ?_, fun _ => rfl⟩
      simp at hp
  | @cancel p₀ s₀ hr ih =>
      obtain ⟨ih₁, ih₂, ih₃⟩ := ih
      refine ⟨fun hp => ?_, fun hp => ?_, fun hp => ?_⟩
      · rcases ih₁ hp with ⟨h₁, h₂⟩ | ⟨h₁, h₂⟩ <;>
          · right
            constructor <;> simp [cancelStep, isTerminalStatus, h₁]
      · rcases ih₂ hp with h₁ | ⟨h₁, h₂⟩
        · right
          constructor <;> simp [cancelStep, isTerminalStatus, h₁]
        · right
          constructor <;> simp [cancelStep, isTerminalStatus, h₁]
      · have hsw : (cancelStep s₀).sessionWritten = s₀.sessionWritten := by
          unfold cancelStep
          split <;> rfl
        rw [hsw]
        exact ih₃ hp
  | start hr ih =>
      obtain ⟨ih₁, _, ih₃⟩ := ih
      refine ⟨fun hp => ?_, fun _ => Or.inl rfl, fun _ => ?_⟩
      · simp at hp
      · exact ih₃ (by simp)
  | finish o hr ih =>
      refine ⟨fun hp => ?_, fun hp => ?_, fun hp => ?_⟩ <;> simp at hp

/-- C2 as stated is false on the code: from the reachable state where a
pending run was cancelled before the executor's first write, the
executor's unconditional write of running changes the status
cancelling → running, which is not an edge of the §4.1 state machine. -/
theorem statusEdges_counterexample :
    ¬ (∀ (p : ExecPhase) (s : RunMachineState), RunReach p s →
        (s.status ≠ (cancelStep s).status →
          isSpecEdge s.status (cancelStep s).status = true)
        ∧ (p = ExecPhase.beforeStart → s.status ≠ (execStartStep s).status →
          isSpecEdge s.status (execStartStep s).status = true)
        ∧ (p = ExecPhase.started → ∀ o, s.status ≠ (execFinishStep o s).status →
          isSpecEdge s.status (execFinishStep o s).status = true)) := by
  intro h
  have hreach : RunReach ExecPhase.beforeStart (cancelStep initialRunState) :=
    RunReach.cancel RunReach.init
  have h₂ := (h ExecPhase.beforeStart (cancelStep initialRunState) hreach).2.1 rfl (by decide)
  revert h₂
  decide

/-- C2 amended: every status change performed by cancel, by the
executor's initial write or by the executor's terminal write follows an
edge of the §4.1 state machine, except for the cancellation races the
code permits: the executor's initial write may move cancelling → running,
its success finish may move cancelling → completed, and its cancelled
finish may move running → cancelled when the cancel preceded the
executor's start; and no operation ever moves a run out of a terminal
status. -/
theorem statusEdges_amended :
    ∀ (p : ExecPhase) (s : RunMachineState), RunReach p s →
      ((s.status ≠ (cancelStep s).status →
          isSpecEdge s.status (cancelStep s).status = true)
       ∧ (p = ExecPhase.beforeStart → s.status ≠ (execStartStep s).status →
          (isSpecEdge s.status (execStartStep s).status = true
            ∨ (s.status = RunStatus.cancelling
                ∧ (execStartStep s).status = RunStatus.running)))
       ∧ (p = ExecPhase.started → ∀ o, s.status ≠ (execFinishStep o s).status →
          (isSpecEdge s.status (execFinishStep o s).status = true
            ∨ (s.status = RunStatus.cancelling
                ∧ (execFinishStep o s).status = RunStatus.completed)
            ∨ (s.status = RunStatus.running
                ∧ (execFinishStep o s).status = RunStatus.cancelled)))
       ∧ (isTerminalStatus s.status = true →
          (cancelStep s).status = s.status
          ∧ (p = ExecPhase.beforeStart → (execStartStep s).status = s.status)
          ∧ (p = ExecPhase.started → ∀ o, (execFinishStep o s).status = s.status))) := by
  intro p s hreach
  obtain ⟨inv₁, inv₂, _⟩ := runReach_invariant p s hreach
  refine ⟨?_, ?_, ?_, ?_⟩
  · intro hne
    unfold cancelStep at hne ⊢
    cases hst : s.status <;> simp [hst, isTerminalStatus, isSpecEdge] at hne ⊢
  · intro hp hne
    rcases inv₁ hp with ⟨h₁, _⟩ | ⟨h₁, _⟩
    · exact Or.inl (by simp [execStartStep, h₁, isSpecEdge])
    · exact Or.inr ⟨h₁, rfl⟩
  · intro hp o hne
    rcases inv₂ hp with h₁ | ⟨h₁, h₂⟩
    · cases o with
      | success => exact Or.inl (by simp [execFinishStep, h₁, isSpecEdge])
      | cancelledError => exact Or.inr (Or.inr ⟨h₁, rfl⟩)
      | otherError msg =>
          by_cases hcr : s.cancelRequested
          · exact Or.inr (Or.inr ⟨h₁, by simp [execFinishStep, hcr]⟩)
          · exact Or.inl (by simp [execFinishStep, hcr, h₁, isSpecEdge])
    · cases o with
      | success => exact Or.inr (Or.inl ⟨h₁, rfl⟩)
      | cancelledError => exact Or.inl (by simp [execFinishStep, h₁, isSpecEdge])
      | otherError msg => exact Or.inl (by simp [execFinishStep, h₂, h₁, isSpecEdge])
  · intro hterm
    refine ⟨by simp [cancelStep, hterm], fun hp => ?_, fun hp o => ?_⟩
    · rcases inv₁ hp with ⟨h₁, _⟩ | ⟨h₁, _⟩ <;> rw [h₁] at hterm <;> simp [isTerminalStatus] at hterm
    · rcases inv₂ hp with h₁ | ⟨h₁, _⟩ <;> rw [h₁] at hterm <;> simp [isTerminalStatus] at hterm

/-- Witness for the amended C2 theorem at a concrete reachable state: the
cancel of a freshly started run moves running → cancelling, an edge. -/
theorem statusEdges_amended_witness :
    isSpecEdge (execStartStep initialRunState).status
        (cancelStep (execStartStep initialRunState)).status = true := by
  have h := (statusEdges_amended ExecPhase.started (execStartStep initialRunState)
    (RunReach.start RunReach.init)).1
  exact h (by decide)

/-- C5: cancel on a terminal run changes nothing; on a non-terminal run it
sets cancel_requested, moves the status to cancelling and appends a
cancelling event; and when the executor observes the cancellation, the run
ends cancelled with completed_at set, the error cleared and no Session
written. -/
theorem cancel_semantics :
    ∀ (s : RunMachineState),
      (isTerminalStatus s.status = true → cancelStep s = s)
      ∧ (isTerminalStatus s.status = false →
          cancelStep s = { s with cancelRequested := true, status := RunStatus.cancelling,
                                  events := s.events ++ ["cancelling"] })
      ∧ (RunReach ExecPhase.started s →
          (execFinishStep ExecOutcome.cancelledError s).status = RunStatus.cancelled
          ∧ (execFinishStep ExecOutcome.cancelledError s).completedAtSet = true
          ∧ (execFinishStep ExecOutcome.cancelledError s).error = ""
          ∧ (execFinishStep ExecOutcome.cancelledError s).sessionWritten = false) := by
  intro s
  refine ⟨fun hterm => by simp [cancelStep, hterm], fun hterm => by simp [cancelStep, hterm], fun hreach => ?_⟩
  have hsw := (runReach_invariant ExecPhase.started s hreach).2.2 (by simp)
  exact ⟨rfl, rfl, rfl, by simp [execFinishStep, hsw]⟩

/-- Witness for C5 at a concrete run: a pending run is cancelled (fields
as claimed), and a started run observed as cancelled ends in status
cancelled with no session. -/
theorem cancel_semantics_witness :
    cancelStep initialRunState
        = { initialRunState with cancelRequested := true, status := RunStatus.cancelling,
                                 events := initialRunState.events ++ ["cancelling"] }
    ∧ (execFinishStep ExecOutcome.cancelledError (execStartStep initialRunState)).status
        = RunStatus.cancelled
    ∧ (execFinishStep ExecOutcome.cancelledError (execStartStep initialRunState)).sessionWritten
        = false := by
  refine ⟨(cancel_semantics initialRunState).2.1 (by decide), ?_, ?_⟩
  · exact ((cancel_semantics (execStartStep initialRunState)).2.2
      (RunReach.start RunReach.init)).1
  · exact ((cancel_semantics (execStartStep initialRunState)).2.2
      (RunReach.start RunReach.init)).2.2.2

/-! ## String helpers

Executable models of the Go standard-library string functions the search
subsystem uses (strings.TrimSpace, strings.ToLower, strings.Contains),
defined over the character list so they evaluate inside the kernel. -/

/-- strings.TrimSpace: drop leading and trailing whitespace. -/
def strTrim (s : String) : String :=
  ⟨((s.data.dropWhile Char.isWhitespace).reverse.dropWhile Char.isWhitespace).reverse⟩

/-- strings.ToLower (over the character map). -/
def strToLower (s : String) : String := ⟨s.data.map Char.toLower⟩

def listStartsWith : List Char → List Char → Bool
  | [], _ => true
  | _ :: _, [] => false
  | c :: cs, d :: ds => (c == d) && listStartsWith cs ds

def listContainsSub (needle : List Char) : List Char → Bool
  | [] => listStartsWith needle []
  | d :: ds => listStartsWith needle (d :: ds) || listContainsSub needle ds

/-- strings.Contains hay needle. -/
def strContainsSub (hay needle : String) : Bool := listContainsSub needle.data hay.data

/-! ## Defaults (internal/user/search_models.go constants) -/

def defaultSearchResultsWanted : Int := 300
def defaultSearchHoursOld : Int := 336
def defaultSearchMaxReturned : Int := 10
def defaultSearchScanMultiplier : Int := 8
def defaultSearchMaxScanResults : Int := 1200

/-! ## Start-handler validation (internal/user/search_tools.go startJobSearchWithMode)

The handler reads its arguments from a JSON-shaped map through getString /
getOptionalInt / getOptionalBool.  The typed model keeps each argument as
present-or-absent; getString's trimming is applied where the source applies
it. -/

structure StartArgs where
  location : String
  jobTitle : String
  userID : String
  site : String
  strictnessMode : String
  datasetPath : String
  resultsWanted : Option Int
  maxReturned : Option Int
  offset : Option Int
  hoursOld : Option Int
  scanMultiplier : Option Int
  maxScanResults : Option Int
  requireDescriptionSignal : Option Bool
  refreshSession : Option Bool
deriving DecidableEq

/-- The frozen query payload the handler builds (search_tools.go lines
138-154). -/
structure SearchQueryRec where
  searchMode : String
  location : String
  jobTitle : String
  userID : String
  datasetPath : String
  site : String
  strictnessMode : String
  resultsWanted : Int
  hoursOld : Int
  maxReturned : Int
  offset : Int
  scanMultiplier : Int
  maxScanResults : Int
  requireDescriptionSignal : Bool
  refreshSession : Bool
deriving DecidableEq

/-- normalizeSearchSite from search_sites.go: lowercase and trim, empty
defaults to linkedin, anything else than linkedin is rejected. -/
def normalizeSearchSite (site : String) : Except String String :=
  let clean := strToLower (strTrim site)
  let clean := if clean = "" then "linkedin" else clean
  if clean ≠ "linkedin" then
    Except.error ("only linkedin is supported right now: " ++ clean)
  else Except.ok clean

/-- strictnessOrDefault from search_models.go (the strict/balanced branch
returns the mode unchanged, as does the final fallback). -/
def strictnessOrDefault (value : String) : String :=
  let mode := strToLower (strTrim value)
  if mode = "" then "strict"
  else if mode = "strict" ∨ mode = "balanced" then mode
  else mode

/-- One Go optional-int block of the form: keep the fallback when absent,
reject values below 1 (used for results_wanted, max_returned,
scan_multiplier). -/
def intArgAtLeast1 (fieldName : String) (fallback : Int) : Option Int → Except String Int
  | none => Except.ok fallback
  | some n => if n < 1 then Except.error (fieldName ++ " must be >= 1") else Except.ok n

/-- The offset block: reject negatives, default 0. -/
def intArgNonNeg (fieldName : String) (fallback : Int) : Option Int → Except String Int
  | none => Except.ok fallback
  | some n => if n < 0 then Except.error (fieldName ++ " must be >= 0") else Except.ok n

/-- The hours_old block (search_tools.go lines 89-98): values below 1 are
clamped to 1, never rejected. -/
def hoursOldArg : Option Int → Int
  | none => defaultSearchHoursOld
  | some n => if n < 1 then 1 else n

/-- The max_scan_results block: raised to results_wanted, never rejected. -/
def maxScanResultsArg (resultsWanted : Int) : Option Int → Int
  | none => defaultSearchMaxScanResults
  | some n => if n < resultsWanted then resultsWanted else n

/-- The validation and normalization prefix of startJobSearchWithMode, in
the source's check order (hours_old and the booleans never fail, so their
position does not affect which error is raised). -/
def startValidate (mode : String) (args : StartArgs) : Except String SearchQueryRec :=
  if strTrim args.location = "" then Except.error "location is required"
  else if strTrim args.jobTitle = "" then Except.error "job_title is required"
  else if strTrim args.userID = "" then Except.error "user_id is required"
  else
    (normalizeSearchSite args.site).bind fun site =>
    let strictness := strictnessOrDefault args.strictnessMode
    if strictness ≠ "strict" ∧ strictness ≠ "balanced" then
      Except.error "strictness_mode must be one of [balanced strict]"
    else
      (intArgAtLeast1 "results_wanted" defaultSearchResultsWanted args.resultsWanted).bind
        fun resultsWanted =>
      (intArgAtLeast1 "max_returned" defaultSearchMaxReturned args.maxReturned).bind
        fun maxReturned =>
      (intArgNonNeg "offset" 0 args.offset).bind fun offset =>
      (intArgAtLeast1 "scan_multiplier" defaultSearchScanMultiplier args.scanMultiplier).bind
        fun scanMultiplier =>
      Except.ok
        { searchMode := mode, location := strTrim args.location,
          jobTitle := strTrim args.jobTitle, userID := strTrim args.userID,
          datasetPath := args.datasetPath, site := site, strictnessMode := strictness,
          resultsWanted := resultsWanted, hoursOld := hoursOldArg args.hoursOld,
          maxReturned := maxReturned, offset := offset, scanMultiplier := scanMultiplier,
          maxScanResults := maxScanResultsArg resultsWanted args.maxScanResults,
          requireDescriptionSignal := args.requireDescriptionSignal.getD false,
          refreshSession := args.refreshSession.getD false }

/-- A run record as the start handler writes it, reduced to the fields the
claim observes. -/
structure StoredRunLite where
  status : String
  query : SearchQueryRec
deriving DecidableEq

/-- The start handler's effect on the run store: a failed validation
returns the error with the store untouched (the store write at lines
175-185 happens only after validation); a successful one appends a pending
run. -/
def startJobSearchOp (mode : String) (args : StartArgs) (runID : String)
    (store : List (String × StoredRunLite)) :
    Except String String × List (String × StoredRunLite) :=
  match startValidate mode args with
  | Except.error e => (Except.error e, store)
  | Except.ok query => (Except.ok runID, store ++ [(runID, { status := "pending", query := query })])

theorem startValidate_ok_implies (mode : String) (args : StartArgs) (q : SearchQueryRec)
    (h : startValidate mode args = Except.ok q) :
    strTrim args.location ≠ "" ∧ strTrim args.jobTitle ≠ "" ∧ strTrim args.userID ≠ ""
    ∧ (strToLower (strTrim args.site) = "" ∨ strToLower (strTrim args.site) = "linkedin")
    ∧ (strictnessOrDefault args.strictnessMode = "strict"
        ∨ strictnessOrDefault args.strictnessMode = "balanced")
    ∧ (∀ n, args.resultsWanted = some n → 1 ≤ n)
    ∧ (∀ n, args.maxReturned = some n → 1 ≤ n)
    ∧ (∀ n, args.offset = some n → 0 ≤ n)
    ∧ (∀ n, args.scanMultiplier = some n → 1 ≤ n)
    ∧ q.hoursOld = hoursOldArg args.hoursOld := by
  unfold startValidate at h
  split at h
  · exact absurd h (by simp)
  split at h
  · exact absurd h (by simp)
  split at h
  · exact absurd h (by simp)
  rcases hsite : normalizeSearchSite args.site with e | site <;> rw [hsite] at h
  · exact absurd h (by simp [Except.bind])
  simp only [Except.bind] at h
  split at h
  · exact absurd h (by simp)
  rename_i hstrictNe
  rcases hrw : intArgAtLeast1 "results_wanted" defaultSearchResultsWanted args.resultsWanted
      with e | rw₁ <;> rw [hrw] at h
  · exact absurd h (by simp [Except.bind])
  rcases hmr : intArgAtLeast1 "max_returned" defaultSearchMaxReturned args.maxReturned
      with e | mr₁ <;> rw [hmr] at h
  · exact absurd h (by simp [Except.bind])
  rcases hof : intArgNonNeg "offset" 0 args.offset with e | of₁ <;> rw [hof] at h
  · exact absurd h (by simp [Except.bind])
  rcases hsm : intArgAtLeast1 "scan_multiplier" defaultSearchScanMultiplier args.scanMultiplier
      with e | sm₁ <;> rw [hsm] at h
  · exact absurd h (by simp [Except.bind])
  simp only [Except.bind, Except.ok.injEq] at h
  have hsite2 : strToLower (strTrim args.site) = "" ∨ strToLower (strTrim args.site) = "linkedin" := by
    by_cases hempty : strToLower (strTrim args.site) = ""
    · exact Or.inl hempty
    · by_cases hlk : strToLower (strTrim args.site) = "linkedin"
      · exact Or.inr hlk
      · exfalso
        simp only [normalizeSearchSite] at hsite
        rw [if_neg hempty, if_pos hlk] at hsite
        exact Except.noConfusion hsite
  have hint1 : ∀ (f : String) (d : Int) (v : Option Int) (r : Int),
      intArgAtLeast1 f d v = Except.ok r → ∀ n, v = some n → 1 ≤ n := by
    intro f d v r hv n hn
    subst hn
    simp only [intArgAtLeast1] at hv
    split at hv
    · exact absurd hv (by simp)
    · omega
  have hint0 : ∀ n, args.offset = some n → 0 ≤ n := by
    intro n hn
    rw [hn] at hof
    simp only [intArgNonNeg] at hof
    split at hof
    · exact absurd hof (by simp)
    · omega
  refine ⟨by assumption, by assumption, by assumption, hsite2, ?_,
    hint1 _ _ _ _ hrw, hint1 _ _ _ _ hmr, hint0, hint1 _ _ _ _ hsm, ?_⟩
  · rcases not_and_or.mp hstrictNe with h₂ | h₂ <;> [left; right] <;> rwa [not_not] at h₂
  · rw [← h]

theorem startValidate_error_keeps_store (mode : String) (args : StartArgs) (runID : String)
    (store : List (String × StoredRunLite)) (h : (startValidate mode args).isOk = false) :
    (startJobSearchOp mode args runID store).2 = store := by
  unfold startJobSearchOp
  rcases hv : startValidate mode args with e | q
  · rfl
  · rw [hv] at h
    exact absurd h (by simp [Except.isOk, Except.toBool])

/-- Arguments that are valid in every respect but carry hours_old = 0. -/
def hoursOldZeroArgs : StartArgs :=
  { location := "Sydney", jobTitle := "engineer", userID := "u1", site := "linkedin",
    strictnessMode := "strict", datasetPath := "",
    resultsWanted := some 5, maxReturned := some 10, offset := some 0,
    hoursOld := some 0, scanMultiplier := some 1, maxScanResults := some 5,
    requireDescriptionSignal := some false, refreshSession := some false }

/-- C9 is false as stated: hours_old = 0 violates the §6.1 constraint
hours_old ≥ 1, yet the start handler succeeds, creates a run, and clamps
hours_old to 1 instead of failing. -/
theorem start_hoursOld_counterexample :
    (startJobSearchOp "visa" hoursOldZeroArgs "run-1" []).1 = Except.ok "run-1"
    ∧ (startJobSearchOp "visa" hoursOldZeroArgs "run-1" []).2.length = 1
    ∧ (Except.map SearchQueryRec.hoursOld (startValidate "visa" hoursOldZeroArgs))
        = Except.ok 1 := by
  refine ⟨rfl, by decide, rfl⟩

/-- C9 amended: start fails synchronously and creates no run whenever
user_id, location or job_title is empty, the site does not normalize to
linkedin, results_wanted < 1, max_returned < 1, offset < 0,
scan_multiplier < 1, or the strictness mode is not strict or balanced;
any validation failure leaves the run store unchanged.  hours_old < 1 is
not a synchronous failure: it is clamped to 1. -/
theorem start_validation_amended :
    ∀ (mode : String) (args : StartArgs) (runID : String)
      (store : List (String × StoredRunLite)),
      ((strTrim args.location = "" ∨ strTrim args.jobTitle = "" ∨ strTrim args.userID = ""
        ∨ (strToLower (strTrim args.site) ≠ "" ∧ strToLower (strTrim args.site) ≠ "linkedin")
        ∨ (strictnessOrDefault args.strictnessMode ≠ "strict"
            ∧ strictnessOrDefault args.strictnessMode ≠ "balanced")
        ∨ (∃ n, args.resultsWanted = some n ∧ n < 1)
        ∨ (∃ n, args.maxReturned = some n ∧ n < 1)
        ∨ (∃ n, args.offset = some n ∧ n < 0)
        ∨ (∃ n, args.scanMultiplier = some n ∧ n < 1)) →
          (startValidate mode args).isOk = false
          ∧ (startJobSearchOp mode args runID store).2 = store)
      ∧ (∀ n q, args.hoursOld = some n → n < 1 →
          startValidate mode args = Except.ok q → q.hoursOld = 1) := by
  intro mode args runID store
  constructor
  · intro hviol
    have hfail : (startValidate mode args).isOk = false := by
      rcases hv : startValidate mode args with e | q
      · rfl
      · exfalso
        obtain ⟨h₁, h₂, h₃, h₄, h₅, h₆, h₇, h₈, h₉, _⟩ :=
          startValidate_ok_implies mode args q hv
        rcases hviol with h | h | h | ⟨ha, hb⟩ | ⟨ha, hb⟩ | ⟨n, hn, hlt⟩ | ⟨n, hn, hlt⟩
          | ⟨n, hn, hlt⟩ | ⟨n, hn, hlt⟩
        · exact h₁ h
        · exact h₂ h
        · exact h₃ h
        · rcases h₄ with h' | h' <;> [exact ha h'; exact hb h']
        · rcases h₅ with h' | h' <;> [exact ha h'; exact hb h']
        · exact absurd (h₆ n hn) (by omega)
        · exact absurd (h₇ n hn) (by omega)
        · exact absurd (h₈ n hn) (by omega)
        · exact absurd (h₉ n hn) (by omega)
    exact ⟨hfail, startValidate_error_keeps_store mode args runID store hfail⟩
  · intro n q hn hlt hq
    have := (startValidate_ok_implies mode args q hq).2.2.2.2.2.2.2.2.2
    rw [this, hn]
    simp only [hoursOldArg]
    rw [if_pos hlt]

/-- Witness for the amended C9 theorem: an empty job_title fails and the
store is untouched, and hours_old = 0 in otherwise-valid arguments is
clamped to 1 in the resulting query. -/
theorem start_validation_amended_witness :
    (startValidate "visa"
        { hoursOldZeroArgs with jobTitle := " " }).isOk = false
    ∧ (startJobSearchOp "visa" { hoursOldZeroArgs with jobTitle := " " } "run-2" []).2 = []
    ∧ (∀ q, startValidate "visa" hoursOldZeroArgs = Except.ok q → q.hoursOld = 1) := by
  refine ⟨?_, ?_, ?_⟩
  · exact ((start_validation_amended "visa" { hoursOldZeroArgs with jobTitle := " " } "run-2" []).1
      (Or.inr (Or.inl (by decide)))).1
  · exact ((start_validation_amended "visa" { hoursOldZeroArgs with jobTitle := " " } "run-2" []).1
      (Or.inr (Or.inl (by decide)))).2
  · intro q hq
    exact (start_validation_amended "visa" hoursOldZeroArgs "run-1" []).2 0 q rfl (by decide) hq

/-! ## Result pagination and the results handler
(internal/user/search_session.go sliceAcceptedJobs / rebuildResponsePage /
loadSearchSessionForUser, internal/user/search_tools.go getJobSearchResults)

Accepted jobs are opaque to slicing, so they are modelled as tokens; the
response parts the handler copies through untouched (status block,
guidance, freshness, recovery suggestions) are likewise opaque tokens. -/

/-- An accepted job as the pagination code sees it: an opaque record. -/
abbrev Job := Nat

structure RespStats where
  returnedJobs : Int
  rest : String
deriving DecidableEq

/-- The pagination map built by sliceAcceptedJobs. -/
structure Pagination where
  offset : Int
  pageSize : Int
  returnedJobs : Int
  nextOffset : Option Int
  hasNextPage : Bool
  acceptedJobsTotal : Int
  neededForPage : Int
  requestedScanTarget : Int
  maxScanResults : Int
  scanExhausted : Bool
deriving DecidableEq

/-- A full response snapshot as stored in the run's latest_response. -/
structure SearchResponse where
  statusBlock : String
  guidance : String
  freshness : String
  recovery : List String
  stats : RespStats
  pagination : Pagination
  jobs : List Job
deriving DecidableEq

/-- Embeds sliceAcceptedJobs from search_session.go lines 169-213. -/
def sliceAcceptedJobs (accepted : List Job)
    (offset maxReturned rawScanTarget maxScanResults : Int) (scanExhausted : Bool) :
    List Job × Pagination :=
  let safeOffset := if offset < 0 then 0 else offset
  let pageSize := if maxReturned < 1 then defaultSearchMaxReturned else maxReturned
  let total : Int := accepted.length
  let safeOffset := if safeOffset > total then total else safeOffset
  let stop := if safeOffset + pageSize > total then total else safeOffset + pageSize
  let page := (accepted.drop safeOffset.toNat).take (stop - safeOffset).toNat
  (page,
   { offset := safeOffset, pageSize := pageSize, returnedJobs := page.length,
     nextOffset := if stop < total then some stop else none,
     hasNextPage := decide (stop < total), acceptedJobsTotal := total,
     neededForPage := safeOffset + pageSize, requestedScanTarget := rawScanTarget,
     maxScanResults := maxScanResults, scanExhausted := scanExhausted })

/-- Embeds rebuildResponsePage from search_session.go lines 215-227. -/
def rebuildResponsePage (base : SearchResponse) (page : List Job)
    (pagination : Pagination) : SearchResponse :=
  { base with jobs := page, pagination := pagination,
              stats := { base.stats with returnedJobs := page.length } }

/-- A persisted Session, reduced to the fields the results handler reads
(the owning user from session.query.user_id, the accepted jobs, and the
scan figures). -/
structure SearchSession where
  userID : String
  acceptedJobs : List Job
  latestScanTarget : Int
  scanExhausted : Bool
deriving DecidableEq

def lookupSession (store : List (String × SearchSession)) (sessionID : String) :
    Option SearchSession :=
  (store.find? (fun kv => kv.fst == sessionID)).map Prod.snd

/-- Embeds loadSearchSessionForUser from search_session.go lines 145-167
(read-only store access that clones the record). -/
def loadSearchSessionForUser (store : List (String × SearchSession))
    (sessionID userID : String) : Except String SearchSession :=
  match lookupSession store sessionID with
  | none => Except.error ("unknown session_id " ++ sessionID)
  | some session =>
      if session.userID ≠ userID then
        Except.error "session_id does not belong to this user_id"
      else Except.ok session

/-- A stored Run as the results handler reads it after loadRunForUser:
the frozen query's paging fields, the referenced session, and the
latest_response snapshot (None models the empty map). -/
structure StoredRun where
  userID : String
  status : String
  queryOffset : Int
  queryMaxReturned : Int
  queryMaxScanResults : Int
  sessionID : String
  latestResponse : Option SearchResponse
deriving DecidableEq


/-- The Go override block for offset in getJobSearchResults: keep the
query's value when no argument is given; reject negatives. -/
def overrideOffsetArg (fallback : Int) : Option Int → Except String Int
  | none => Except.ok fallback
  | some n => if n < 0 then Except.error "offset must be >= 0" else Except.ok n

/-- The Go override block for max_returned: keep the (coerced) query value
when no argument is given; reject values below 1. -/
def overrideMaxArg (fallback : Int) : Option Int → Except String Int
  | none => Except.ok fallback
  | some n => if n < 1 then Except.error "max_returned must be >= 1" else Except.ok n

/-- Embeds the body of getJobSearchResults (search_tools.go lines 283-376)
after the run has been loaded for the calling user.  The success value is
the response whose parts the handler's payload re-wraps. -/
def resultsCore (run : StoredRun) (sessions : List (String × SearchSession))
    (userID : String) (argOffset argMax : Option Int) (statusToolName : String) :
    Except String SearchResponse :=
  match run.latestResponse with
  | none =>
      Except.error ("no result snapshot yet; poll " ++ statusToolName
        ++ " until results are available")
  | some latestResponse =>
      (overrideOffsetArg run.queryOffset argOffset).bind fun requestedOffset =>
      (overrideMaxArg (if run.queryMaxReturned < 1 then defaultSearchMaxReturned
                       else run.queryMaxReturned) argMax).bind fun requestedMax =>
      if requestedOffset ≠ run.queryOffset
          ∨ requestedMax ≠ (if run.queryMaxReturned < 1 then defaultSearchMaxReturned
                            else run.queryMaxReturned) then
        if run.sessionID = "" then
          Except.error "search_session_id is unavailable for this run"
        else
          (loadSearchSessionForUser sessions run.sessionID userID).bind fun session =>
            Except.ok (rebuildResponsePage latestResponse
              (sliceAcceptedJobs session.acceptedJobs requestedOffset requestedMax
                session.latestScanTarget
                (if defaultSearchMaxScanResults > run.queryMaxScanResults
                 then defaultSearchMaxScanResults else run.queryMaxScanResults)
                session.scanExhausted).1
              (sliceAcceptedJobs session.acceptedJobs requestedOffset requestedMax
                session.latestScanTarget
                (if defaultSearchMaxScanResults > run.queryMaxScanResults
                 then defaultSearchMaxScanResults else run.queryMaxScanResults)
                session.scanExhausted).2)
      else Except.ok latestResponse

/-- The whole handler call: the session store is consulted read-only
(withSearchSessionStore with write = false never saves, and
loadSearchSessionForUser clones the record), so it is returned unchanged
in every outcome. -/
def getJobSearchResults (run : StoredRun) (sessions : List (String × SearchSession))
    (userID : String) (argOffset argMax : Option Int) (statusToolName : String) :
    Except String SearchResponse × List (String × SearchSession) :=
  (resultsCore run sessions userID argOffset argMax statusToolName, sessions)

/-- C3: with a non-empty latest_response, asking for the run's own
(offset, max_returned) returns the stored response verbatim; any other
(offset, max_returned) loads the referenced Session and returns the
re-sliced page with fresh pagination, leaving the session store unchanged
in every outcome; with an empty latest_response the call errors with
guidance to poll the status tool. -/
theorem results_verbatim_or_resliced :
    ∀ (run : StoredRun) (sessions : List (String × SearchSession)) (userID t : String),
      (∀ resp, run.latestResponse = some resp →
        (0 ≤ run.queryOffset → 1 ≤ run.queryMaxReturned →
          getJobSearchResults run sessions userID
              (some run.queryOffset) (some run.queryMaxReturned) t
            = (Except.ok resp, sessions))
        ∧ (∀ o m session, 0 ≤ o → 1 ≤ m →
            (o ≠ run.queryOffset
              ∨ m ≠ (if run.queryMaxReturned < 1 then defaultSearchMaxReturned
                     else run.queryMaxReturned)) →
            run.sessionID ≠ "" →
            lookupSession sessions run.sessionID = some session →
            session.userID = userID →
            getJobSearchResults run sessions userID (some o) (some m) t
              = (Except.ok (rebuildResponsePage resp
                  (sliceAcceptedJobs session.acceptedJobs o m session.latestScanTarget
                    (if defaultSearchMaxScanResults > run.queryMaxScanResults
                     then defaultSearchMaxScanResults else run.queryMaxScanResults)
                    session.scanExhausted).1
                  (sliceAcceptedJobs session.acceptedJobs o m session.latestScanTarget
                    (if defaultSearchMaxScanResults > run.queryMaxScanResults
                     then defaultSearchMaxScanResults else run.queryMaxScanResults)
                    session.scanExhausted).2), sessions)))
      ∧ (run.latestResponse = none →
          getJobSearchResults run sessions userID none none t
            = (Except.error ("no result snapshot yet; poll " ++ t
                ++ " until results are available"), sessions))
      ∧ (∀ ao am, (getJobSearchResults run sessions userID ao am t).2 = sessions) := by
  intro run sessions userID t
  refine ⟨fun resp hresp =>
      ⟨fun hoff hmax => ?_, fun o m session ho hm hne hsid hfind huser => ?_⟩,
    fun hnone => ?_, fun ao am => rfl⟩
  · unfold getJobSearchResults resultsCore
    rw [hresp]
    have h₁ : ¬ run.queryOffset < 0 := not_lt.mpr hoff
    have h₂ : ¬ run.queryMaxReturned < 1 := by omega
    simp only [overrideOffsetArg, overrideMaxArg, if_neg h₁, if_neg h₂, Except.bind]
    rw [if_neg (by simp)]
  · unfold getJobSearchResults resultsCore loadSearchSessionForUser
    rw [hresp]
    have h₁ : ¬ o < 0 := not_lt.mpr ho
    have h₂ : ¬ m < 1 := by omega
    simp only [overrideOffsetArg, overrideMaxArg, if_neg h₁, if_neg h₂, Except.bind]
    rw [if_pos hne, if_neg hsid, hfind]
    simp only [if_neg (not_ne_iff.mpr huser)]
  · unfold getJobSearchResults resultsCore
    rw [hnone]

/-- C10: with a non-empty latest_response, a results call with no
overrides, or with the run's own (offset, max_returned), returns the
stored snapshot regardless of the session store contents — in particular
after the referenced Session was pruned — while a call with any other
(offset, max_returned) fails when the referenced Session is gone. -/
theorem results_snapshot_survives_session_pruning :
    ∀ (run : StoredRun) (sessions : List (String × SearchSession)) (userID t : String)
      (resp : SearchResponse),
      run.latestResponse = some resp →
      (getJobSearchResults run sessions userID none none t = (Except.ok resp, sessions))
      ∧ (0 ≤ run.queryOffset → 1 ≤ run.queryMaxReturned →
          getJobSearchResults run sessions userID
              (some run.queryOffset) (some run.queryMaxReturned) t
            = (Except.ok resp, sessions))
      ∧ (∀ o m, 0 ≤ o → 1 ≤ m →
          (o ≠ run.queryOffset
            ∨ m ≠ (if run.queryMaxReturned < 1 then defaultSearchMaxReturned
                   else run.queryMaxReturned)) →
          lookupSession sessions run.sessionID = none →
          ((getJobSearchResults run sessions userID (some o) (some m) t).1).isOk = false) := by
  intro run sessions userID t resp hresp
  refine ⟨?_, fun hoff hmax => ?_, fun o m ho hm hne hgone => ?_⟩
  · unfold getJobSearchResults resultsCore
    rw [hresp]
    simp only [overrideOffsetArg, overrideMaxArg, Except.bind]
    rw [if_neg (by simp)]
  · exact ((results_verbatim_or_resliced run sessions userID t).1 resp hresp).1 hoff hmax
  · unfold getJobSearchResults resultsCore loadSearchSessionForUser
    rw [hresp]
    have h₁ : ¬ o < 0 := not_lt.mpr ho
    have h₂ : ¬ m < 1 := by omega
    simp only [overrideOffsetArg, overrideMaxArg, if_neg h₁, if_neg h₂, Except.bind]
    rw [if_pos hne]
    by_cases hsid : run.sessionID = ""
    · rw [if_pos hsid]
      rfl
    · rw [if_neg hsid, hgone]
      rfl

/-- Concrete fixtures for the results-handler witnesses. -/
def sampleResponse : SearchResponse :=
  { statusBlock := "st", guidance := "g", freshness := "f", recovery := [],
    stats := { returnedJobs := 2, rest := "r" },
    pagination := { offset := 0, pageSize := 2, returnedJobs := 2, nextOffset := some 2,
                    hasNextPage := true, acceptedJobsTotal := 3, neededForPage := 2,
                    requestedScanTarget := 3, maxScanResults := 1200,
                    scanExhausted := false },
    jobs := [10, 11] }

def sampleSession : SearchSession :=
  { userID := "u", acceptedJobs := [10, 11, 12], latestScanTarget := 3,
    scanExhausted := false }

def sampleRun : StoredRun :=
  { userID := "u", status := "completed", queryOffset := 0, queryMaxReturned := 2,
    queryMaxScanResults := 1200, sessionID := "s1",
    latestResponse := some sampleResponse }

/-- Witness for C3 at a concrete run and session store: the run's own
(offset, max_returned) returns the stored snapshot, and an override
re-slices through the session. -/
theorem results_verbatim_or_resliced_witness :
    getJobSearchResults sampleRun [("s1", sampleSession)] "u" (some 0) (some 2) "tool"
      = (Except.ok sampleResponse, [("s1", sampleSession)])
    ∧ getJobSearchResults sampleRun [("s1", sampleSession)] "u" (some 2) (some 2) "tool"
      = (Except.ok (rebuildResponsePage sampleResponse
          (sliceAcceptedJobs sampleSession.acceptedJobs 2 2 sampleSession.latestScanTarget
            (if defaultSearchMaxScanResults > sampleRun.queryMaxScanResults
             then defaultSearchMaxScanResults else sampleRun.queryMaxScanResults)
            sampleSession.scanExhausted).1
          (sliceAcceptedJobs sampleSession.acceptedJobs 2 2 sampleSession.latestScanTarget
            (if defaultSearchMaxScanResults > sampleRun.queryMaxScanResults
             then defaultSearchMaxScanResults else sampleRun.queryMaxScanResults)
            sampleSession.scanExhausted).2), [("s1", sampleSession)]) := by
  constructor
  · exact ((results_verbatim_or_resliced sampleRun [("s1", sampleSession)] "u" "tool").1
      sampleResponse rfl).1 (by decide) (by decide)
  · exact ((results_verbatim_or_resliced sampleRun [("s1", sampleSession)] "u" "tool").1
      sampleResponse rfl).2 2 2 sampleSession (by decide) (by decide)
      (Or.inl (by decide)) (by decide) rfl rfl

/-- Witness for C10 at a concrete run whose session store is empty: the
no-override call still returns the snapshot and a shifted offset fails. -/
theorem results_snapshot_survives_witness :
    getJobSearchResults sampleRun [] "u" none none "tool"
      = (Except.ok sampleResponse, [])
    ∧ ((getJobSearchResults sampleRun [] "u" (some 2) (some 2) "tool").1).isOk = false := by
  constructor
  · exact (results_snapshot_survives_session_pruning sampleRun [] "u" "tool"
      sampleResponse rfl).1
  · exact (results_snapshot_survives_session_pruning sampleRun [] "u" "tool"
      sampleResponse rfl).2.2 2 2 (by decide) (by decide) (Or.inl (by decide)) rfl

/-! ## Rate-limit envelope (internal/user/search_linkedin.go lines 278-348)

One loop iteration consumes one outcome of the wrapped doRequest call; an
attempt also carries whether the cancel probe fires at the top of the
iteration or during the following sleep.  Sleep arithmetic is carried out
in ℚ: the backoff doubling, the two clamps and the comparisons are exact
in float64 for these magnitudes. -/

/-- One observed outcome of the wrapped call plus the cancel-probe
readings of that iteration. -/
structure RLAttempt where
  cancelBefore : Bool
  err : Option String
  resp : Option Int
  cancelDuringSleep : Bool
deriving DecidableEq

/-- isRateLimitStatus from search_linkedin.go: the upstream 429 status. -/
def isRateLimitStatus (code : Int) : Bool := code == 429

/-- isRateLimitError from search_linkedin.go: the lowercased error text
contains 429, rate limit or too many requests. -/
def isRateLimitError (msg : String) : Bool :=
  strContainsSub (strToLower msg) "429"
    || strContainsSub (strToLower msg) "rate limit"
    || strContainsSub (strToLower msg) "too many requests"

/-- The user-facing error returned when the retry budget is exhausted. -/
def rateLimitExhaustedMsg : String :=
  "rate limited by upstream job source (429/Too Many Requests). Retried for 3 minutes without recovery. Please try again shortly"

inductive RLOutcome
  | success (code : Int)
  | failure (msg : String)
  | cancelledOut
  | outOfAttempts
deriving DecidableEq

structure RLResult where
  outcome : RLOutcome
  sleeps : List ℚ
  elapsed : ℚ
  retries : Nat
deriving DecidableEq

/-- The three dispatch outcomes of one loop iteration. -/
inductive AttemptClass
  | immediateSuccess (code : Int)
  | immediateFailure (msg : String)
  | retryable
deriving DecidableEq

/-- How one attempt is dispatched by the loop body: the early success
return (err nil, response present, not 429), the immediate surfacing of a
non-retryable failure, or a retry (429 status, or an error whose text
matches the rate-limit patterns). -/
def classifyAttempt (a : RLAttempt) : AttemptClass :=
  match a.err, a.resp with
  | none, some code =>
      if isRateLimitStatus code then AttemptClass.retryable
      else AttemptClass.immediateSuccess code
  | some msg, _ =>
      if isRateLimitError msg then AttemptClass.retryable
      else AttemptClass.immediateFailure msg
  | none, none => AttemptClass.immediateFailure "linkedin request failed without response"

/-- Embeds requestWithRateLimitBackoff: the loop over attempts with the
retry window, the max backoff, the current backoff, the elapsed sleep time
and the retry counter. -/
def rateLimitLoop : List RLAttempt → ℚ → ℚ → ℚ → ℚ → Nat → RLResult
  | [], _window, _maxB, _backoff, elapsed, retries =>
      { outcome := RLOutcome.outOfAttempts, sleeps := [], elapsed := elapsed, retries := retries }
  | a :: rest, window, maxB, backoff, elapsed, retries =>
      if a.cancelBefore then
        { outcome := RLOutcome.cancelledOut, sleeps := [], elapsed := elapsed, retries := retries }
      else
        match classifyAttempt a with
        | AttemptClass.immediateSuccess code =>
            { outcome := RLOutcome.success code, sleeps := [], elapsed := elapsed, retries := retries }
        | AttemptClass.immediateFailure msg =>
            { outcome := RLOutcome.failure msg, sleeps := [], elapsed := elapsed, retries := retries }
        | AttemptClass.retryable =>
            if elapsed ≥ window then
              { outcome := RLOutcome.failure rateLimitExhaustedMsg, sleeps := [],
                elapsed := elapsed, retries := retries }
            else
              if (if (if backoff > maxB then maxB else backoff) > window - elapsed
                  then window - elapsed
                  else if backoff > maxB then maxB else backoff) ≤ 0 then
                { outcome := RLOutcome.failure rateLimitExhaustedMsg, sleeps := [],
                  elapsed := elapsed, retries := retries }
              else if a.cancelDuringSleep then
                { outcome := RLOutcome.cancelledOut, sleeps := [], elapsed := elapsed,
                  retries := retries }
              else
                let sleepFor := if (if backoff > maxB then maxB else backoff) > window - elapsed
                                then window - elapsed
                                else if backoff > maxB then maxB else backoff
                let r := rateLimitLoop rest window maxB (backoff * 2) (elapsed + sleepFor)
                  (retries + 1)
                { outcome := r.outcome, sleeps := sleepFor :: r.sleeps, elapsed := r.elapsed,
                  retries := r.retries }

/-- The wrapper entry: backoff starts at the initial backoff, elapsed at 0. -/
def requestWithRateLimitBackoff (attempts : List RLAttempt) (window initialBackoff maxB : ℚ) :
    RLResult :=
  rateLimitLoop attempts window maxB initialBackoff 0 0

/-- The retryability condition exactly as the claim words it: status 429,
or error text containing 429, rate limit or too many requests after
lowercasing. -/
def rlRetryableAttemptB (a : RLAttempt) : Bool :=
  (a.err == none && a.resp == some 429)
    || (match a.err with
        | some m =>
            strContainsSub (strToLower m) "429"
              || strContainsSub (strToLower m) "rate limit"
              || strContainsSub (strToLower m) "too many requests"
        | none => false)

theorem classifyAttempt_retryable_iff (a : RLAttempt) :
    classifyAttempt a = AttemptClass.retryable ↔ rlRetryableAttemptB a = true := by
  rcases a with ⟨cb, err, resp, cd⟩
  cases err with
  | none =>
      cases resp with
      | none => simp [classifyAttempt, rlRetryableAttemptB]
      | some code =>
          by_cases h429 : code = 429
          · subst h429
            simp [classifyAttempt, rlRetryableAttemptB, isRateLimitStatus]
          · simp [classifyAttempt, rlRetryableAttemptB, isRateLimitStatus, h429]
  | some m =>
      cases hb : (strContainsSub (strToLower m) "429"
          || strContainsSub (strToLower m) "rate limit"
          || strContainsSub (strToLower m) "too many requests") with
      | true => simp [classifyAttempt, rlRetryableAttemptB, isRateLimitError, hb]
      | false => simp [classifyAttempt, rlRetryableAttemptB, isRateLimitError, hb]

theorem clampIte_eq_min (a b : ℚ) : (if a > b then b else a) = min a b := by
  rcases le_or_lt a b with h | h
  · rw [if_neg (not_lt.mpr h), min_eq_left h]
  · rw [if_pos h, min_eq_right h.le]

theorem rateLimitLoop_sleep_shape :
    ∀ (attempts : List RLAttempt) (window maxB backoff elapsed : ℚ) (retries : Nat),
      (∀ i x, (rateLimitLoop attempts window maxB backoff elapsed retries).sleeps.get? i = some x →
          x = min (min (backoff * 2 ^ i) maxB)
                (window - (elapsed
                  + (((rateLimitLoop attempts window maxB backoff elapsed retries).sleeps.take i).sum))))
      ∧ ((rateLimitLoop attempts window maxB backoff elapsed retries).sleeps).sum
          ≤ max 0 (window - elapsed) := by
  intro attempts
  induction attempts with
  | nil =>
      intro window maxB backoff elapsed retries
      exact ⟨fun i x hx => absurd hx (by simp [rateLimitLoop]), by simp [rateLimitLoop]⟩
  | cons a rest ih =>
      intro window maxB backoff elapsed retries
      by_cases hcb : a.cancelBefore
      · refine ⟨fun i x hx => absurd hx (by simp [rateLimitLoop, hcb]), ?_⟩
        simp [rateLimitLoop, hcb]
      · rcases hcl : classifyAttempt a with code | msg | _
        · refine ⟨fun i x hx => absurd hx (by simp [rateLimitLoop, hcb, hcl]), ?_⟩
          simp [rateLimitLoop, hcb, hcl]
        · refine ⟨fun i x hx => absurd hx (by simp [rateLimitLoop, hcb, hcl]), ?_⟩
          simp [rateLimitLoop, hcb, hcl]
        · by_cases hwin : elapsed ≥ window
          · refine ⟨fun i x hx => absurd hx (by simp [rateLimitLoop, hcb, hcl, hwin]), ?_⟩
            simp [rateLimitLoop, hcb, hcl, hwin]
          · have hsleep : (if (if backoff > maxB then maxB else backoff) > window - elapsed
                then window - elapsed
                else if backoff > maxB then maxB else backoff)
                  = min (min backoff maxB) (window - elapsed) := by
              rw [clampIte_eq_min backoff maxB, clampIte_eq_min (min backoff maxB) (window - elapsed)]
            by_cases hpos : (if (if backoff > maxB then maxB else backoff) > window - elapsed
                then window - elapsed
                else if backoff > maxB then maxB else backoff) ≤ 0
            · refine ⟨fun i x hx => absurd hx (by simp [rateLimitLoop, hcb, hcl, hwin, hpos]), ?_⟩
              simp [rateLimitLoop, hcb, hcl, hwin, hpos]
            · by_cases hcd : a.cancelDuringSleep
              · refine ⟨fun i x hx => absurd hx (by simp [rateLimitLoop, hcb, hcl, hwin, hpos, hcd]), ?_⟩
                simp [rateLimitLoop, hcb, hcl, hwin, hpos, hcd]
              · have hres : rateLimitLoop (a :: rest) window maxB backoff elapsed retries
                    = { outcome := (rateLimitLoop rest window maxB (backoff * 2)
                          (elapsed + min (min backoff maxB) (window - elapsed)) (retries + 1)).outcome,
                        sleeps := min (min backoff maxB) (window - elapsed)
                          :: (rateLimitLoop rest window maxB (backoff * 2)
                              (elapsed + min (min backoff maxB) (window - elapsed)) (retries + 1)).sleeps,
                        elapsed := (rateLimitLoop rest window maxB (backoff * 2)
                          (elapsed + min (min backoff maxB) (window - elapsed)) (retries + 1)).elapsed,
                        retries := (rateLimitLoop rest window maxB (backoff * 2)
                          (elapsed + min (min backoff maxB) (window - elapsed)) (retries + 1)).retries } := by
                  conv_lhs => rw [rateLimitLoop]
                  rw [if_neg (by simp [hcb]), hcl]
                  dsimp only
                  rw [if_neg hwin, if_neg hpos, if_neg (by simp [hcd]), hsleep]
                obtain ⟨ihget, ihsum⟩ := ih window maxB (backoff * 2)
                  (elapsed + min (min backoff maxB) (window - elapsed)) (retries + 1)
                have hposmin : 0 < min (min backoff maxB) (window - elapsed) := by
                  rw [hsleep] at hpos
                  exact lt_of_not_le hpos
                have hlewin : min (min backoff maxB) (window - elapsed) ≤ window - elapsed :=
                  min_le_right _ _
                constructor
                · intro i x hx
                  rw [hres] at hx ⊢
                  cases i with
                  | zero =>
                      rw [List.get?_cons_zero, Option.some.injEq] at hx
                      rw [← hx]
                      simp only [List.take, List.sum_nil, pow_zero, mul_one, add_zero]
                  | succ j =>
                      rw [List.get?_cons_succ] at hx
                      have hxj := ihget j x hx
                      rw [hxj]
                      simp only [List.take_succ_cons, List.sum_cons]
                      have hpow : backoff * 2 * 2 ^ j = backoff * 2 ^ (j + 1) := by
                        rw [pow_succ]
                        ring
                      rw [hpow]
                      congr 1
                      ring
                · rw [hres]
                  simp only [List.sum_cons]
                  have htail := ihsum
                  have hmax : max 0 (window - (elapsed + min (min backoff maxB) (window - elapsed)))
                      = window - elapsed - min (min backoff maxB) (window - elapsed) := by
                    rw [max_eq_right (by linarith)]
                    ring
                  rw [hmax] at htail
                  have hstep : min (min backoff maxB) (window - elapsed)
                      + ((rateLimitLoop rest window maxB (backoff * 2)
                          (elapsed + min (min backoff maxB) (window - elapsed))
                          (retries + 1)).sleeps).sum ≤ window - elapsed := by linarith
                  calc min (min backoff maxB) (window - elapsed)
                      + ((rateLimitLoop rest window maxB (backoff * 2)
                          (elapsed + min (min backoff maxB) (window - elapsed))
                          (retries + 1)).sleeps).sum
                      ≤ window - elapsed := hstep
                    _ ≤ max 0 (window - elapsed) := le_max_right 0 _

/-- C4: the envelope retries exactly on a 429 status or a rate-limit error
text (surfacing every other outcome immediately, without consulting later
attempts and without sleeping); the k-th sleep equals the doubled backoff
initial_backoff * 2 ^ k clamped to max_backoff and to the remaining retry
window; the cumulative sleep never exceeds retry_window + max_backoff; and
an exhausted budget (elapsed at or past the window, or a non-positive
final slice) fails with the user-facing retry-later error. -/
theorem rateLimit_envelope :
    ∀ (window maxB : ℚ),
      (∀ a : RLAttempt, (classifyAttempt a = AttemptClass.retryable) ↔ rlRetryableAttemptB a = true)
      ∧ (∀ (a : RLAttempt) (rest : List RLAttempt) (backoff elapsed : ℚ) (retries : Nat),
            a.cancelBefore = false → rlRetryableAttemptB a = false →
            rateLimitLoop (a :: rest) window maxB backoff elapsed retries
              = rateLimitLoop [a] window maxB backoff elapsed retries
            ∧ (rateLimitLoop (a :: rest) window maxB backoff elapsed retries).sleeps = [])
      ∧ (∀ (a : RLAttempt) (rest : List RLAttempt) (backoff elapsed : ℚ) (retries : Nat),
            a.cancelBefore = false → rlRetryableAttemptB a = true →
            (window ≤ elapsed ∨ min (min backoff maxB) (window - elapsed) ≤ 0) →
            (rateLimitLoop (a :: rest) window maxB backoff elapsed retries).outcome
              = RLOutcome.failure rateLimitExhaustedMsg)
      ∧ (∀ (attempts : List RLAttempt) (initB : ℚ),
            (∀ i x, (requestWithRateLimitBackoff attempts window initB maxB).sleeps.get? i = some x →
              x = min (min (initB * 2 ^ i) maxB)
                    (window - (((requestWithRateLimitBackoff attempts window initB maxB).sleeps.take i).sum)))
            ∧ (0 ≤ window → 0 ≤ maxB →
                ((requestWithRateLimitBackoff attempts window initB maxB).sleeps).sum
                  ≤ window + maxB)) := by
  intro window maxB
  refine ⟨classifyAttempt_retryable_iff, ?_, ?_, ?_⟩
  · intro a rest backoff elapsed retries hcb hret
    have hncl : classifyAttempt a ≠ AttemptClass.retryable := by
      intro hc
      rw [(classifyAttempt_retryable_iff a).mp hc] at hret
      exact Bool.noConfusion hret
    have hcbne : ¬ a.cancelBefore = true := by simp [hcb]
    rcases hc : classifyAttempt a with code | msg | _
    · constructor
      · conv_lhs => rw [rateLimitLoop]
        conv_rhs => rw [rateLimitLoop]
        rw [if_neg hcbne, if_neg hcbne, hc]
      · conv_lhs => rw [rateLimitLoop]
        rw [if_neg hcbne, hc]
    · constructor
      · conv_lhs => rw [rateLimitLoop]
        conv_rhs => rw [rateLimitLoop]
        rw [if_neg hcbne, if_neg hcbne, hc]
      · conv_lhs => rw [rateLimitLoop]
        rw [if_neg hcbne, hc]
    · exact absurd hc hncl
  · intro a rest backoff elapsed retries hcb hret hbudget
    have hcl : classifyAttempt a = AttemptClass.retryable :=
      (classifyAttempt_retryable_iff a).mpr hret
    conv_lhs => rw [rateLimitLoop]
    rw [if_neg (show ¬ a.cancelBefore = true by simp [hcb]), hcl]
    dsimp only
    rcases hbudget with hb | hb
    · rw [if_pos (by linarith : elapsed ≥ window)]
    · by_cases hwin : elapsed ≥ window
      · rw [if_pos hwin]
      · rw [if_neg hwin]
        rw [if_pos ?hle]
        case hle =>
          rw [clampIte_eq_min backoff maxB, clampIte_eq_min (min backoff maxB) (window - elapsed)]
          exact hb
  · intro attempts initB
    obtain ⟨hget, hsum⟩ := rateLimitLoop_sleep_shape attempts window maxB initB 0 0
    constructor
    · intro i x hx
      have hx2 : (rateLimitLoop attempts window maxB initB 0 0).sleeps.get? i = some x := hx
      have hform := hget i x hx2
      rw [hform]
      simp only [requestWithRateLimitBackoff]
      congr 1
      rw [zero_add]
    · intro hw hm
      calc ((requestWithRateLimitBackoff attempts window initB maxB).sleeps).sum
          ≤ max 0 (window - 0) := hsum
        _ = window := by rw [sub_zero, max_eq_right hw]
        _ ≤ window + maxB := by linarith

/-- Concrete attempts for the envelope witness. -/
def rlAtt429 : RLAttempt :=
  { cancelBefore := false, err := none, resp := some 429, cancelDuringSleep := false }

def rlAttBoom : RLAttempt :=
  { cancelBefore := false, err := some "boom", resp := none, cancelDuringSleep := false }

def rlAttOK : RLAttempt :=
  { cancelBefore := false, err := none, resp := some 200, cancelDuringSleep := false }

/-- Witness for C4 at window 10, initial backoff 3, max backoff 4: a 429
response is classified retryable; a plain error surfaces with no sleep; an
exhausted window fails with the retry-later error; the second sleep of a
run with two retries is the doubled backoff clamped to the max backoff;
and the cumulative sleep respects the budget. -/
theorem rateLimit_envelope_witness :
    classifyAttempt rlAtt429 = AttemptClass.retryable
    ∧ (rateLimitLoop [rlAttBoom, rlAtt429] 10 4 3 0 0).sleeps = []
    ∧ (rateLimitLoop [rlAtt429] 10 4 3 10 0).outcome = RLOutcome.failure rateLimitExhaustedMsg
    ∧ (4 : ℚ) = min (min (3 * 2 ^ 1) 4)
        (10 - (((requestWithRateLimitBackoff [rlAtt429, rlAtt429, rlAttOK] 10 3 4).sleeps.take 1).sum))
    ∧ ((requestWithRateLimitBackoff [rlAtt429, rlAtt429, rlAttOK] 10 3 4).sleeps).sum ≤ 10 + 4 := by
  refine ⟨?_, ?_, ?_, ?_, ?_⟩
  · exact ((rateLimit_envelope 10 4).1 rlAtt429).mpr (by decide)
  · exact ((rateLimit_envelope 10 4).2.1 rlAttBoom [rlAtt429] 3 0 0 rfl (by decide)).2
  · exact (rateLimit_envelope 10 4).2.2.1 rlAtt429 [] 3 10 0 rfl (by decide) (Or.inl (by norm_num))
  · refine ((rateLimit_envelope 10 4).2.2.2 [rlAtt429, rlAtt429, rlAttOK] 3).1 1 4 ?_
    norm_num [requestWithRateLimitBackoff, rateLimitLoop, classifyAttempt, rlAtt429, rlAttOK,
      isRateLimitStatus]
  · exact ((rateLimit_envelope 10 4).2.2.2 [rlAtt429, rlAtt429, rlAttOK] 3).2
      (by norm_num) (by norm_num)

/-- Witness for C6 at concrete budgets: the fold respects the limit, a
budget-denied candidate bumps only the skipped counter, and a candidate
needing no description changes nothing. -/
theorem description_budget_respected_witness :
    (budgetRun true true 7 100 [⟨0, 0⟩, ⟨1, 0⟩]).fetches ≤ 7
    ∧ (budgetStep true true 0 100 ⟨0, 0, false⟩ ⟨0, 0⟩).skipped = 0 + 1
    ∧ (budgetStep true true 0 100 ⟨0, 0, false⟩ ⟨0, 0⟩).fetches = 0
    ∧ budgetStep false false 7 100 ⟨0, 0, false⟩ ⟨5, 0⟩ = ⟨0, 0, false⟩ := by
  refine ⟨(description_budget_respected true true 7 100 [⟨0, 0⟩, ⟨1, 0⟩]).1, ?_, ?_, ?_⟩
  · exact (((description_budget_respected true true 0 100 []).2 ⟨0, 0, false⟩ ⟨0, 0⟩).2.1
      (by decide) (by decide)).1
  · exact (((description_budget_respected true true 0 100 []).2 ⟨0, 0, false⟩ ⟨0, 0⟩).2.1
      (by decide) (by decide)).2
  · exact ((description_budget_respected false false 7 100 []).2 ⟨0, 0, false⟩ ⟨5, 0⟩).2.2
      (by decide)

end VisaJobs
